import Mathlib

/-!
Shallow embedding of `tracerr` (src/error.go): an error type carrying a
captured stack trace, with construction, wrapping, unwrapping, trace
retrieval and deterministic rendering.

Modelling conventions:
* A Go `error` interface value is `Option GoErr`: `none` is the nil
  interface, `some e` a concrete error value.  Within this package the
  only implementation of the traced `Error` interface is `*errorData`,
  so the type assertion `err.(Error)` is the constructor test `isError`.
  Errors foreign to the package are modelled by `GoErr.plain`, carrying
  only their `Error()` text (the one thing the code observes of them).
* The stack-introspection collaborator (`runtime.Caller` combined with
  `runtime.FuncForPC(...).Name()`) is modelled as a list of frames,
  innermost first: the collaborator's answer at depth `i` is entry `i`
  of the list, and it reports no entry once the depth passes the end.
* A Go slice of frames is modelled with its contents together with its
  capacity, so that `make([]Frame, 0, DefaultCap)` and `append` are
  represented faithfully and the capacity hint's (non-)influence on
  results can be stated.  The mutable global `DefaultCap` is passed as
  an explicit parameter to the operations that read it.
* Calling a method on a nil interface value panics in Go; rendering is
  therefore modelled as `goErrText : GoErr → Option String`, where
  `none` marks such a panic.
-/

/-- A single step in a stack trace (struct `Frame` of src/error.go). -/
structure Frame where
  Func : String
  Line : Int
  Path : String
deriving DecidableEq, Repr

/-- `Frame.String`: `fmt.Sprintf("%s:%d %s()", f.Path, f.Line, f.Func)`. -/
def Frame.string (f : Frame) : String :=
  f.Path ++ ":" ++ toString f.Line ++ " " ++ f.Func ++ "()"

/-- Error values as the package can observe them: either a foreign error
(observed only through its `Error()` text) or the package's own
`*errorData` with its three fields (`err` is a Go interface value, hence
nullable). -/
inductive GoErr where
  | plain (text : String)
  | errorData (err : Option GoErr) (message : String) (frames : List Frame)
deriving Repr

/-- The type assertion `err.(Error)`: within this package only
`*errorData` implements the `Error` interface. -/
def isError : GoErr → Bool
  | .plain _ => false
  | .errorData _ _ _ => true

/-- A Go slice of frames: contents plus capacity. -/
structure GoSlice where
  data : List Frame
  cap : Nat
deriving DecidableEq, Repr

/-- `make([]Frame, 0, cap)` for a nonnegative capacity. -/
def goMake (cap : Nat) : GoSlice :=
  { data := [], cap := cap }

/-- `make([]Frame, 0, cap)` with Go's `int` capacity argument: a negative
capacity makes `make` panic (`none`). -/
def goMakeChecked (cap : Int) : Option GoSlice :=
  if cap < 0 then none else some (goMake cap.toNat)

/-- `append(s, x)`: reuse the capacity when there is room, otherwise
grow (the grown capacity is unobservable in the result's contents). -/
def goAppend (s : GoSlice) (x : Frame) : GoSlice :=
  if s.data.length < s.cap then { data := s.data ++ [x], cap := s.cap }
  else { data := s.data ++ [x], cap := max (2 * s.cap) (s.data.length + 1) }

/-- The capture loop of `trace`: query the collaborator at increasing
depth starting from `skip`, appending a frame per answer, until it
reports no entry. -/
def captureData (stack : List Frame) (skip : Nat) (s : GoSlice) : GoSlice :=
  match h : stack[skip]? with
  | none => s
  | some f => captureData stack (skip + 1) (goAppend s f)
termination_by stack.length - skip
decreasing_by
  have hlt : skip < stack.length := by
    by_contra hge
    push_neg at hge
    rw [List.getElem?_eq_none hge] at h
    exact Option.noConfusion h
  omega

/-- `trace(err, message, skip)` of src/error.go: capture the current
stack from depth `skip` into a slice pre-sized by the capacity hint and
build an `errorData`. -/
def trace (stack : List Frame) (DefaultCap : Nat) (err : Option GoErr)
    (message : String) (skip : Nat) : GoErr :=
  .errorData err message (captureData stack skip (goMake DefaultCap)).data

/-- `CustomError(err, frames)`: build an `errorData` from the supplied
frames verbatim; the `message` field keeps its zero value `""`. -/
def CustomError (err : Option GoErr) (frames : List Frame) : GoErr :=
  .errorData err "" frames

/-- `New(message)`: `trace(fmt.Errorf(message), "", 2)`; the external
`fmt.Errorf` yields an error whose text is the message. -/
def New (stack : List Frame) (DefaultCap : Nat) (message : String) : GoErr :=
  trace stack DefaultCap (some (.plain message)) "" 2

/-- `Errorf(message, args...)`: the external `fmt.Errorf` formatting is
modelled by taking the already-formatted text. -/
def Errorf (stack : List Frame) (DefaultCap : Nat) (formatted : String) : GoErr :=
  trace stack DefaultCap (some (.plain formatted)) "" 2

/-- `Newf(format, a...)`, same modelling as `Errorf`. -/
def Newf (stack : List Frame) (DefaultCap : Nat) (formatted : String) : GoErr :=
  trace stack DefaultCap (some (.plain formatted)) "" 2

/-- `Wrap(err, message)`: nil in, nil out; an error already satisfying
the `Error` interface is returned unchanged; otherwise capture a fresh
trace at skip depth 2. -/
def Wrap (stack : List Frame) (DefaultCap : Nat) (err : Option GoErr)
    (message : String) : Option GoErr :=
  match err with
  | none => none
  | some e => if isError e then some e else some (trace stack DefaultCap (some e) message 2)

/-- `Wrapf(err, format, a...)`: format externally, delegate to `Wrap`. -/
def Wrapf (stack : List Frame) (DefaultCap : Nat) (err : Option GoErr)
    (formatted : String) : Option GoErr :=
  Wrap stack DefaultCap err formatted

/-- Package-level `Unwrap(err)`: nil for nil, the stored original for a
traced error, the argument itself otherwise.  (`(*errorData).Unwrap`
returns the `err` field.) -/
def Unwrap (err : Option GoErr) : Option GoErr :=
  match err with
  | none => none
  | some e =>
    match e with
    | .errorData orig _ _ => orig
    | .plain t => some (.plain t)

/-- Package-level `StackTrace(err)`: nil (the empty sequence) unless the
argument is a traced error, in which case its `frames` field.  (A nil
interface value fails the type assertion, so nil also yields the empty
sequence.) -/
def StackTrace (err : Option GoErr) : List Frame :=
  match err with
  | some (.errorData _ _ frames) => frames
  | _ => []

/-- The frame loop of `(*errorData).Error`: every frame tab-indented,
a line break before each frame except the first. -/
def framesLoop : Bool → List Frame → String
  | _, [] => ""
  | isFirstFrame, f :: rest =>
    (if isFirstFrame then "" else "\n") ++ "\t" ++ f.string ++ framesLoop false rest

/-- `(*errorData).Error` (and the `Error()` text of any error value):
optional message plus line break, the original's text plus line break,
then the frame lines.  Calling `Error()` through a nil `err` field is a
Go panic, modelled as `none`. -/
def goErrText : GoErr → Option String
  | .plain t => some t
  | .errorData none _ _ => none
  | .errorData (some o) message frames =>
    (goErrText o).map (fun origText =>
      (if message = "" then "" else message ++ "\n") ++ origText ++ "\n"
        ++ framesLoop true frames)

/-- The `message` field of an `errorData` (zero value for a foreign
error); observer used to state claims about the message. -/
def messageOf : GoErr → String
  | .plain _ => ""
  | .errorData _ m _ => m

/-- `true` when no `err` field along the chain is the nil interface, so
that rendering never dereferences nil. -/
def nilFree : GoErr → Bool
  | .plain _ => true
  | .errorData none _ _ => false
  | .errorData (some o) _ _ => nilFree o

/-- Frame-sequence rendering as §4.4 of the spec words it: each frame
tab-indented, consecutive frames separated by a line break, no trailing
line break after the last frame. -/
def framesSpec : List Frame → String
  | [] => ""
  | [f] => "\t" ++ f.string
  | f :: g :: rest => "\t" ++ f.string ++ "\n" ++ framesSpec (g :: rest)

theorem goAppend_data (s : GoSlice) (x : Frame) : (goAppend s x).data = s.data ++ [x] := by
  unfold goAppend
  split <;> rfl

theorem captureData_data (stack : List Frame) (skip : Nat) (s : GoSlice) :
    (captureData stack skip s).data = s.data ++ stack.drop skip := by
  refine captureData.induct stack
    (fun skip s => (captureData stack skip s).data = s.data ++ stack.drop skip) ?_ ?_ skip s
  · intro skip s h
    rw [captureData]
    split
    · rw [List.drop_eq_nil_of_le, List.append_nil]
      exact List.getElem?_eq_none_iff.mp h
    · rename_i f heq
      rw [heq] at h
      exact Option.noConfusion h
  · intro skip s f h ih
    rw [captureData]
    split
    · rename_i heq
      rw [heq] at h
      exact Option.noConfusion h
    · rename_i f2 heq
      rw [heq] at h
      injection h with hf2
      subst hf2
      rw [ih, goAppend_data]
      rcases List.getElem?_eq_some.mp heq with ⟨hlt, hf⟩
      rw [List.drop_eq_getElem_cons hlt, hf, List.append_assoc]
      rfl

theorem captureData_goMake (stack : List Frame) (skip cap : Nat) :
    (captureData stack skip (goMake cap)).data = stack.drop skip := by
  rw [captureData_data]
  rfl

theorem framesLoop_false_cons (f : Frame) (fs : List Frame) :
    framesLoop false (f :: fs) = "\n" ++ framesLoop true (f :: fs) := by
  show ("\n" ++ "\t" ++ f.string) ++ framesLoop false fs
      = "\n" ++ (("" ++ "\t" ++ f.string) ++ framesLoop false fs)
  rw [String.empty_append, String.append_assoc "\n" "\t" f.string, String.append_assoc]

theorem framesLoop_eq_framesSpec (fs : List Frame) : framesLoop true fs = framesSpec fs := by
  induction fs with
  | nil => rfl
  | cons f rest ih =>
    cases rest with
    | nil =>
      show "" ++ "\t" ++ f.string ++ "" = "\t" ++ f.string
      rw [String.empty_append, String.append_empty]
    | cons g rest2 =>
      show "" ++ "\t" ++ f.string ++ framesLoop false (g :: rest2)
          = "\t" ++ f.string ++ "\n" ++ framesSpec (g :: rest2)
      rw [String.empty_append, framesLoop_false_cons, ih, ← String.append_assoc]

theorem nilFree_some : ∀ (e : GoErr), nilFree e = true → ∃ s, goErrText e = some s
  | .plain t, _ => ⟨t, rfl⟩
  | .errorData (some o) m fs, h => by
    rcases nilFree_some o h with ⟨s, hs⟩
    refine ⟨(if m = "" then "" else m ++ "\n") ++ s ++ "\n" ++ framesLoop true fs, ?_⟩
    simp [goErrText, hs]
  | .errorData none m fs, h => by simp [nilFree] at h

/-- C1: for every non-nil error `e` that does not already satisfy the
traced-error contract and all notes `m1`, `m2` (and any collaborator
state and capacity hint at either call), `Wrap (Wrap e m1) m2` is the
very same value as `Wrap e m1`: same frames, same wrapped original,
message still `m1`; the second wrap neither re-captures nor changes the
message. -/
theorem wrap_idempotent (stack1 stack2 : List Frame) (c1 c2 : Nat) (e : GoErr)
    (m1 m2 : String) (h : isError e = false) :
    Wrap stack2 c2 (Wrap stack1 c1 (some e) m1) m2 = Wrap stack1 c1 (some e) m1 := by
  have h1 : Wrap stack1 c1 (some e) m1
      = some (.errorData (some e) m1 (captureData stack1 2 (goMake c1)).data) := by
    simp [Wrap, trace, h]
  rw [h1]
  simp [Wrap, isError]

/-- Witness for C1 at a concrete foreign error and concrete stacks. -/
theorem wrap_idempotent_witness :
    isError (GoErr.plain "boom") = false ∧
    Wrap [⟨"main.g", 20, "/a.go"⟩] 7
        (Wrap [⟨"main.f", 10, "/a.go"⟩] 20 (some (GoErr.plain "boom")) "m1") "m2"
      = Wrap [⟨"main.f", 10, "/a.go"⟩] 20 (some (GoErr.plain "boom")) "m1" :=
  ⟨rfl, wrap_idempotent [⟨"main.f", 10, "/a.go"⟩] [⟨"main.g", 20, "/a.go"⟩] 20 7
    (GoErr.plain "boom") "m1" "m2" rfl⟩

/-- C2: rendering a traced error whose original renders as `origText`
yields the message followed by a line break exactly when the message is
non-empty, then the original's text and a line break, then the frames
tab-indented, line-break separated, with no trailing line break
(`framesSpec`, the frame-part layout in the spec's words). -/
theorem render_spec (o : GoErr) (origText message : String) (frames : List Frame)
    (h : goErrText o = some origText) :
    goErrText (.errorData (some o) message frames)
      = some ((if message = "" then "" else message ++ "\n") ++ origText ++ "\n"
          ++ framesSpec frames) := by
  simp [goErrText, h, framesLoop_eq_framesSpec]

/-- Witness for C2: the concrete example of the claim, message `ctx`,
original text `boom`, two frames in `/a.go`. -/
theorem render_spec_witness :
    goErrText (GoErr.plain "boom") = some "boom" ∧
    goErrText (.errorData (some (GoErr.plain "boom")) "ctx"
        [⟨"main.f", 10, "/a.go"⟩, ⟨"main.g", 20, "/a.go"⟩])
      = some "ctx\nboom\n\t/a.go:10 main.f()\n\t/a.go:20 main.g()" :=
  ⟨rfl, by
    rw [render_spec (GoErr.plain "boom") "boom" "ctx"
      [⟨"main.f", 10, "/a.go"⟩, ⟨"main.g", 20, "/a.go"⟩] rfl]
    rfl⟩

/-- C3: `Unwrap` returns nil on nil, the stored original on a traced
error, and the argument itself on any other error. -/
theorem unwrap_cases :
    Unwrap none = none
    ∧ (∀ orig message frames, Unwrap (some (.errorData orig message frames)) = orig)
    ∧ (∀ e, isError e = false → Unwrap (some e) = some e) := by
  refine ⟨rfl, fun orig m fs => rfl, fun e h => ?_⟩
  cases e with
  | plain t => rfl
  | errorData o m fs => simp [isError] at h

/-- Witness for C3 at a concrete foreign error. -/
theorem unwrap_cases_witness :
    isError (GoErr.plain "EOF") = false ∧
    Unwrap (some (GoErr.plain "EOF")) = some (GoErr.plain "EOF") :=
  ⟨rfl, unwrap_cases.2.2 (GoErr.plain "EOF") rfl⟩

/-- C4: wrapping nil is a no-op — for every collaborator state, capacity
hint and note, `Wrap nil note` returns nil rather than failing or
constructing a traced value. -/
theorem wrap_nil (stack : List Frame) (cap : Nat) (message : String) :
    Wrap stack cap none message = none := rfl

/-- C5: `StackTrace` returns the empty sequence on every value that does
not satisfy the traced-error contract (nil included), and the stored
frame sequence on every value that does. -/
theorem stackTrace_cases :
    (∀ e, isError e = false → StackTrace (some e) = [])
    ∧ StackTrace none = []
    ∧ (∀ orig message frames, StackTrace (some (.errorData orig message frames)) = frames) := by
  refine ⟨fun e h => ?_, rfl, fun orig m fs => rfl⟩
  cases e with
  | plain t => rfl
  | errorData o m fs => simp [isError] at h

/-- Witness for C5 at a concrete foreign error. -/
theorem stackTrace_cases_witness :
    isError (GoErr.plain "boom") = false ∧
    StackTrace (some (GoErr.plain "boom")) = [] :=
  ⟨rfl, stackTrace_cases.1 (GoErr.plain "boom") rfl⟩

/-- C6: for a traced error whose stored original `o` is not itself
traced, unwrapping and re-wrapping yields a new traced value with the
same original `o`, message `note`, and a frame sequence freshly captured
from the collaborator's state at the re-wrap site (`stack2.drop 2`,
skip depth 2) — independent of the stored frames `fs`. -/
theorem unwrap_rewrap (stack2 : List Frame) (c2 : Nat) (o : GoErr) (m note : String)
    (fs : List Frame) (h : isError o = false) :
    Wrap stack2 c2 (Unwrap (some (.errorData (some o) m fs))) note
      = some (.errorData (some o) note (stack2.drop 2)) := by
  simp [Unwrap, Wrap, h, trace, captureData_goMake]

/-- Witness for C6: re-wrapping at a three-frame collaborator state
captures the fresh frame, not the stored one. -/
theorem unwrap_rewrap_witness :
    isError (GoErr.plain "boom") = false ∧
    Wrap [⟨"a", 1, "p"⟩, ⟨"b", 2, "q"⟩, ⟨"c", 3, "r"⟩] 20
        (Unwrap (some (.errorData (some (GoErr.plain "boom")) "old" [⟨"z", 9, "w"⟩]))) "note"
      = some (.errorData (some (GoErr.plain "boom")) "note" [⟨"c", 3, "r"⟩]) :=
  ⟨rfl, by
    rw [unwrap_rewrap [⟨"a", 1, "p"⟩, ⟨"b", 2, "q"⟩, ⟨"c", 3, "r"⟩] 20
      (GoErr.plain "boom") "old" "note" [⟨"z", 9, "w"⟩] rfl]
    rfl⟩

/-- C7 counterexample: the operations are not total on every input —
rendering a value built by `CustomError` with a nil original
dereferences the nil interface (a Go panic, `none` in the model), and
`make` with a negative value of the capacity hint panics. -/
theorem render_not_total :
    goErrText (CustomError none []) = none ∧ goMakeChecked (-1) = none :=
  ⟨rfl, rfl⟩

/-- C7 amended: capture is total and degrades to the (possibly empty)
remaining collaborator answers; wrapping nil degrades to nil; `make`
succeeds for every nonnegative capacity hint; and rendering is total on
every error value whose chain of stored originals contains no nil. -/
theorem totality_amended :
    (∀ stack skip cap, (captureData stack skip (goMake cap)).data = stack.drop skip)
    ∧ (∀ stack cap m, Wrap stack cap none m = none)
    ∧ (∀ cap : Int, 0 ≤ cap → goMakeChecked cap = some (goMake cap.toNat))
    ∧ (∀ e, nilFree e = true → ∃ s, goErrText e = some s) := by
  refine ⟨fun stack skip cap => captureData_goMake stack skip cap,
    fun _ _ _ => rfl, fun cap hc => ?_, fun e he => nilFree_some e he⟩
  simp [goMakeChecked, not_lt.mpr hc]

/-- Witness for C7 (amended) at concrete inputs, hypotheses discharged. -/
theorem totality_amended_witness :
    (0 : Int) ≤ 20
    ∧ nilFree (GoErr.errorData (some (GoErr.plain "boom")) "ctx" []) = true
    ∧ (captureData [⟨"a", 1, "p"⟩] 2 (goMake 20)).data = []
    ∧ Wrap [] 20 none "m" = none
    ∧ goMakeChecked 20 = some (goMake 20)
    ∧ ∃ s, goErrText (GoErr.errorData (some (GoErr.plain "boom")) "ctx" []) = some s :=
  ⟨by decide, rfl, totality_amended.1 [⟨"a", 1, "p"⟩] 2 20,
    totality_amended.2.1 [] 20 "m", totality_amended.2.2.1 20 (by decide),
    totality_amended.2.2.2 (GoErr.errorData (some (GoErr.plain "boom")) "ctx" []) rfl⟩

/-- C8: the capacity hint affects no result — for any two nonnegative
values of the hint, `trace` (and hence the capturing constructors and
`Wrap`) returns an identical value for the same collaborator state. -/
theorem cap_noninterference (c1 c2 : Nat) (stack : List Frame) (err : Option GoErr)
    (message : String) (skip : Nat) :
    trace stack c1 err message skip = trace stack c2 err message skip
    ∧ (∀ m, New stack c1 m = New stack c2 m)
    ∧ Wrap stack c1 err message = Wrap stack c2 err message := by
  have htr : ∀ e m sk, trace stack c1 e m sk = trace stack c2 e m sk := by
    intro e m sk
    unfold trace
    rw [captureData_goMake, captureData_goMake]
  refine ⟨htr err message skip, fun m => ?_, ?_⟩
  · unfold New
    exact htr _ _ _
  · unfold Wrap
    simp only [htr]

/-- C9: `CustomError` performs no capture (it consults no collaborator
state nor capacity hint) and yields a traced value whose frame sequence
is exactly the supplied one and whose unwrap result is the supplied
error. -/
theorem customError_verbatim (e : Option GoErr) (fs : List Frame) :
    StackTrace (some (CustomError e fs)) = fs
    ∧ Unwrap (some (CustomError e fs)) = e
    ∧ messageOf (CustomError e fs) = "" :=
  ⟨rfl, rfl, rfl⟩

/-- C10: `CustomError` applies none of `Wrap`'s guards — for every
original, nil or already traced, it unconditionally builds a traced
value wrapping it with an empty message; in particular it nests a traced
error inside another traced value, duplicating traces. -/
theorem customError_no_guards (fs : List Frame) :
    (∀ o, CustomError o fs = .errorData o "" fs
      ∧ isError (CustomError o fs) = true
      ∧ messageOf (CustomError o fs) = "")
    ∧ Unwrap (some (CustomError none fs)) = none
    ∧ (∀ orig m fs0, StackTrace (some (CustomError (some (.errorData orig m fs0)) fs)) = fs
      ∧ Unwrap (some (CustomError (some (.errorData orig m fs0)) fs))
        = some (.errorData orig m fs0)) :=
  ⟨fun _ => ⟨rfl, rfl, rfl⟩, rfl, fun _ _ _ => ⟨rfl, rfl⟩⟩
